import Mathlib

/-!
# Dashboard script of the Sage connector (app/static/app.js)

A shallow embedding of the browser script: the page elements the script
looks up by id, the five functions it stores on the window object, and the
timer queue of the event loop, run on an ideal millisecond clock (a timer
fires exactly when it is due, timers due at the same time fire in the
order they were set).
-/

namespace ConnecteurSages

/-! ## Data model -/

/-- The two directions of the simulated synchronisation. -/
inductive Direction where
  | batigestToBatisimply
  | batisimplyToBatigest
deriving DecidableEq, Repr

/-- A page element, reduced to the two properties the script touches. -/
structure Element where
  innerHTML : String
  classList : List String
deriving DecidableEq, Repr

/-- The two arrow functions handed to setTimeout: the completion callback of
a trigger (one per direction, lines 11-13 and 18-20) and the callback of
showSyncSuccess that hides the status element (lines 47-49). -/
inductive Callback where
  | syncDone (d : Direction)
  | hide
deriving DecidableEq, Repr

/-- A pending timer: the time it is due and its callback. -/
structure Timer where
  due : Nat
  callback : Callback
deriving DecidableEq, Repr

/-- One assignment to the innerHTML of the status element, with its time. -/
structure Write where
  time : Nat
  html : String
deriving DecidableEq, Repr

/-- The exception raised when a property of null is assigned. -/
inductive JsError where
  | typeError
deriving DecidableEq, Repr

/-- The state the script runs in: the clock (ms), the four elements it looks
up by id (none when getElementById returns null), the names of the functions
stored on window, the pending timers in the order they were set, and the
history of innerHTML assignments to the status element (an observation
record, never read by the script). -/
structure Page where
  now : Nat
  syncIcon : Option Element
  statusMessage : Option Element
  sqlStatus : Option Element
  pgStatus : Option Element
  window : List String
  timers : List Timer
  writes : List Write
deriving DecidableEq, Repr

/-! ## DOM helpers -/

/-- The method classList.add: the token is appended unless already there. -/
def classListAdd (token : String) (cl : List String) : List String :=
  if token ∈ cl then cl else cl ++ [token]

/-- The method classList.remove: every occurrence of the token goes. -/
def classListRemove (token : String) (cl : List String) : List String :=
  cl.filter (fun c => decide (c ≠ token))

/-- The call setTimeout(cb, delay): one more pending timer. -/
def setTimeout (cb : Callback) (delay : Nat) (p : Page) : Page :=
  { p with timers := p.timers ++ [{ due := p.now + delay, callback := cb }] }

/-- The assignment window.name = function: the name becomes callable. -/
def windowSet (name : String) (w : List String) : List String :=
  if name ∈ w then w else w ++ [name]

/-! ## The messages and templates of the script -/

/-- First argument of showSyncStatus at lines 10 and 17. -/
def runningMessage : Direction → String
  | .batigestToBatisimply => "Synchronisation Batigest → Batisimply en cours..."
  | .batisimplyToBatigest => "Synchronisation Batisimply → Batigest en cours..."

/-- Second argument of showSyncStatus at lines 10 and 17. -/
def runningColor : Direction → String
  | .batigestToBatisimply => "blue"
  | .batisimplyToBatigest => "purple"

/-- Argument of showSyncSuccess at lines 12 and 19. -/
def successMessage : Direction → String
  | .batigestToBatisimply => "Synchronisation Batigest → Batisimply terminée avec succès !"
  | .batisimplyToBatigest => "Synchronisation Batisimply → Batigest terminée avec succès !"

/-- Line 25: the colour classes, blue for the colour blue, purple otherwise. -/
def colorClasses (color : String) : String :=
  if color = "blue" then "bg-blue-50 border-blue-200 text-blue-700"
  else "bg-purple-50 border-purple-200 text-purple-700"

/-- The template literal of lines 26-33 (spinner and message). -/
def statusHtml (classes message : String) : String :=
  "\n            <div class=\"" ++ classes ++ " border rounded-2xl p-6 text-center\">\n                <div class=\"flex items-center justify-center mb-4\">\n                    <div class=\"animate-spin rounded-full h-8 w-8 border-b-2 border-current\"></div>\n                </div>\n                <p class=\"font-medium\">" ++ message ++ "</p>\n            </div>\n        "

/-- The template literal of lines 39-46 (green check mark and message). -/
def successHtml (message : String) : String :=
  "\n            <div class=\"bg-green-50 border border-green-200 text-green-700 rounded-2xl p-6 text-center\">\n                <div class=\"flex items-center justify-center mb-4\">\n                    <i class=\"fas fa-check-circle text-3xl text-green-500\"></i>\n                </div>\n                <p class=\"font-medium\">" ++ message ++ "</p>\n            </div>\n        "

/-- Content of the status element while direction d is shown as running. -/
def runningHtml (d : Direction) : String :=
  statusHtml (colorClasses (runningColor d)) (runningMessage d)

/-- Content of the status element once direction d is shown as done. -/
def doneHtml (d : Direction) : String :=
  successHtml (successMessage d)

/-! ## The window functions -/

/-- Lines 23-35, window.showSyncStatus: fails on the innerHTML assignment
when the status element is missing, otherwise replaces its content and
removes the class hidden. -/
def showSyncStatus (message color : String) (p : Page) : Except JsError Page :=
  match p.statusMessage with
  | none => .error .typeError
  | some statusDiv =>
    let html := statusHtml (colorClasses color) message
    .ok { p with
      statusMessage := some
        { innerHTML := html, classList := classListRemove "hidden" statusDiv.classList }
      writes := p.writes ++ [{ time := p.now, html := html }] }

/-- Lines 37-50, window.showSyncSuccess: fails on the innerHTML assignment
when the status element is missing, otherwise replaces its content and sets
a timer of 5000 ms that hides the element. -/
def showSyncSuccess (message : String) (p : Page) : Except JsError Page :=
  match p.statusMessage with
  | none => .error .typeError
  | some statusDiv =>
    let html := successHtml message
    .ok (setTimeout .hide 5000 { p with
      statusMessage := some { statusDiv with innerHTML := html }
      writes := p.writes ++ [{ time := p.now, html := html }] })

/-- Lines 9-14 and 16-21, window.syncBatigestToBatisimply and
window.syncBatisimplyToBatigest: show the running message, then set a timer
of 3000 ms for the success message. An exception of showSyncStatus leaves
the function before setTimeout is reached. -/
def sync (d : Direction) (p : Page) : Except JsError Page :=
  match showSyncStatus (runningMessage d) (runningColor d) p with
  | .error e => .error e
  | .ok p1 => .ok (setTimeout (.syncDone d) 3000 p1)

/-- Lines 9-14. -/
def syncBatigestToBatisimply (p : Page) : Except JsError Page :=
  sync .batigestToBatisimply p

/-- Lines 16-21. -/
def syncBatisimplyToBatigest (p : Page) : Except JsError Page :=
  sync .batisimplyToBatigest p

/-- Lines 53-60, window.updateConnectionStatus: two lookups whose results
are not used (the assignments are commented out in the source). -/
def updateConnectionStatus (p : Page) : Except JsError Page :=
  let _sqlStatus := p.sqlStatus
  let _pgStatus := p.pgStatus
  .ok p

/-- Lines 1-60, the DOMContentLoaded handler: the class animate-spin is
added to the sync icon when there is one, then the five functions are stored
on window. -/
def domContentLoaded (p : Page) : Page :=
  let syncIcon := match p.syncIcon with
    | some icon => some { icon with classList := classListAdd "animate-spin" icon.classList }
    | none => none
  { p with
    syncIcon := syncIcon
    window :=
      windowSet "updateConnectionStatus"
        (windowSet "showSyncSuccess"
          (windowSet "showSyncStatus"
            (windowSet "syncBatisimplyToBatigest"
              (windowSet "syncBatigestToBatisimply" p.window)))) }

/-! ## The event loop -/

/-- Body of a timer callback. The callback hide acts on the element its
closure captured, which is the status element. -/
def Callback.run : Callback → Page → Except JsError Page
  | .syncDone d, p => showSyncSuccess (successMessage d) p
  | .hide, p =>
    match p.statusMessage with
    | none => .ok p
    | some statusDiv =>
      .ok { p with
        statusMessage := some
          { statusDiv with classList := classListAdd "hidden" statusDiv.classList } }

/-- An exception that leaves a callback or a call is reported by the browser
and the page keeps the state it had when the exception was raised (here the
state before the call, as every exception precedes the first effect). -/
def settle (p : Page) : Except JsError Page → Page
  | .ok q => q
  | .error _ => p

/-- The next timer to fire, with the timers that stay pending: the one due
first, and among those due at the same time the one set first. -/
def popNext : List Timer → Option (Timer × List Timer)
  | [] => none
  | tm :: rest =>
    match popNext rest with
    | none => some (tm, [])
    | some (r, rest1) => if r.due < tm.due then some (r, tm :: rest1) else some (tm, rest)

/-- A timer fires: the clock reaches its due time and its callback runs. -/
def fire (tm : Timer) (p : Page) : Page :=
  let p1 := { p with now := max p.now tm.due }
  settle p1 (tm.callback.run p1)

/-- Bound on the number of firings the pending timers can cause: a
completion callback sets one hide timer, a hide callback sets none. -/
def Callback.weight : Callback → Nat
  | .syncDone _ => 2
  | .hide => 1

/-- Sum of the weights of the pending timers. -/
def timersWeight (ts : List Timer) : Nat :=
  (ts.map (fun tm => tm.callback.weight)).sum

/-- The clock runs up to time t: timers due by then fire in order, each at
its due time; fuel bounds the number of firings. -/
def advanceFuel : Nat → Nat → Page → Page
  | 0, t, p => { p with now := max p.now t }
  | fuel + 1, t, p =>
    match popNext p.timers with
    | none => { p with now := max p.now t }
    | some (tm, rest) =>
      if tm.due ≤ t then advanceFuel fuel t (fire tm { p with timers := rest })
      else { p with now := max p.now t }

/-- The clock runs up to time t, with enough fuel for every pending timer
and every timer those set in turn. -/
def advanceTo (t : Nat) (p : Page) : Page :=
  advanceFuel (timersWeight p.timers) t p

/-- The calls a user or another script can make on the window functions. -/
inductive Call where
  | syncBatigestToBatisimply
  | syncBatisimplyToBatigest
  | showSyncStatus (message color : String)
  | showSyncSuccess (message : String)
  | updateConnectionStatus
deriving DecidableEq, Repr

/-- The function a call runs. -/
def Call.run : Call → Page → Except JsError Page
  | .syncBatigestToBatisimply, p => ConnecteurSages.syncBatigestToBatisimply p
  | .syncBatisimplyToBatigest, p => ConnecteurSages.syncBatisimplyToBatigest p
  | .showSyncStatus message color, p => ConnecteurSages.showSyncStatus message color p
  | .showSyncSuccess message, p => ConnecteurSages.showSyncSuccess message p
  | .updateConnectionStatus, p => ConnecteurSages.updateConnectionStatus p

/-- The call of the trigger of a direction. -/
def Call.ofDirection : Direction → Call
  | .batigestToBatisimply => .syncBatigestToBatisimply
  | .batisimplyToBatigest => .syncBatisimplyToBatigest

/-- An event: a call made delay ms after the previous event. -/
structure Event where
  delay : Nat
  call : Call
deriving DecidableEq, Repr

/-- One event: the clock runs for the delay, then the call is made. -/
def step (p : Page) (e : Event) : Page :=
  let p1 := advanceTo (p.now + e.delay) p
  settle p1 (e.call.run p1)

/-- A sequence of events, in order. -/
def runEvents (p : Page) (es : List Event) : Page :=
  es.foldl step p

/-- A trigger call of direction d, delay ms after the previous event. -/
def trigger (delay : Nat) (d : Direction) : Event :=
  { delay := delay, call := Call.ofDirection d }

/-- Whether the status element exists and does not carry the class hidden. -/
def statusVisible (p : Page) : Bool :=
  match p.statusMessage with
  | none => false
  | some e => decide ("hidden" ∉ e.classList)

/-- The content of the status element, when it exists. -/
def statusContent (p : Page) : Option String :=
  p.statusMessage.map (fun e => e.innerHTML)

/-- A page just loaded: clock at 0, the status element present, empty and
hidden, the sync icon present, no timer pending. -/
def idlePage : Page :=
  { now := 0
    syncIcon := some { innerHTML := "", classList := ["fas", "fa-sync"] }
    statusMessage := some { innerHTML := "", classList := ["mt-6", "hidden"] }
    sqlStatus := some { innerHTML := "SQL", classList := [] }
    pgStatus := some { innerHTML := "PG", classList := [] }
    window := []
    timers := []
    writes := [] }

/-- The fields of the page no window function and no callback assigns. -/
def Page.untouched (p : Page) : Option Element × Option Element × Option Element × List String :=
  (p.syncIcon, p.sqlStatus, p.pgStatus, p.window)

/-- The page idlePage once its DOMContentLoaded handler has run. -/
def loadedPage : Page := domContentLoaded idlePage

/-- Number of pending completion timers of direction d: the jobs of d that
are shown as running and not yet as done. -/
def pendingJobs (d : Direction) (p : Page) : Nat :=
  p.timers.countP (fun tm => decide (tm.callback = .syncDone d))

/-- The status element holds the success content of some direction. -/
def showsDone (p : Page) : Prop :=
  ∃ d : Direction, statusContent p = some (doneHtml d)

/-- The status element holds the running content of some direction. -/
def showsRunning (p : Page) : Prop :=
  ∃ d : Direction, statusContent p = some (runningHtml d)

/-- Whether a content is the success content of one of the two directions. -/
def isDoneHtml (html : String) : Bool :=
  html == doneHtml .batigestToBatisimply || html == doneHtml .batisimplyToBatigest

/-- The writes of a success message among the recorded writes, in order. -/
def successWrites (ws : List Write) : List Write :=
  ws.filter (fun w => isDoneHtml w.html)

/-- The write a pending timer will make when it fires: the success content
of its direction at its due time for a completion timer, none for a hide
timer. -/
def Timer.planned (tm : Timer) : Option Write :=
  match tm.callback with
  | .syncDone d => some { time := tm.due, html := doneHtml d }
  | .hide => none

/-- The success writes made so far followed by those the pending timers
will make. -/
def ledger (p : Page) : List Write :=
  successWrites p.writes ++ p.timers.filterMap Timer.planned

/-- The events of a sequence of trigger calls, each given by its delay after
the previous event and its direction. -/
def triggers (calls : List (Nat × Direction)) : List Event :=
  calls.map (fun c => trigger c.1 c.2)

/-- The time of the last call of a sequence that starts at time t0. -/
def lastCallTime (t0 : Nat) (calls : List (Nat × Direction)) : Nat :=
  t0 + (calls.map (fun c => c.1)).sum

/-- One success write per call, of the direction of the call and 3000 ms
after it, in the order of the calls. -/
def completions (t0 : Nat) : List (Nat × Direction) → List Write
  | [] => []
  | c :: rest => { time := t0 + c.1 + 3000, html := doneHtml c.2 } :: completions (t0 + c.1) rest

/-- The state the trigger runs keep: the status element exists; completion
timers were set in the order they are due; no pending timer is overdue; a
completion timer is due within 3000 ms; no recorded write is in the future. -/
structure Consistent (p : Page) : Prop where
  status : p.statusMessage ≠ none
  ordered : p.timers.Pairwise
    (fun x y => x.callback ≠ .hide → y.callback ≠ .hide → x.due ≤ y.due)
  pending : ∀ tm ∈ p.timers, p.now ≤ tm.due
  near : ∀ tm ∈ p.timers, tm.callback ≠ .hide → tm.due ≤ p.now + 3000
  past : ∀ w ∈ p.writes, w.time ≤ p.now

/-- Two trigger calls on the loaded idle page, the second 6000 ms after the
first: after the first success message and before its hide timer is due. -/
def secondCallAt6000 : Page :=
  runEvents loadedPage
    (triggers [(0, .batigestToBatisimply), (6000, .batigestToBatisimply)])

/-- Two trigger calls on the loaded idle page, the second 4000 ms after the
first. -/
def secondCallAt4000 : Page :=
  runEvents loadedPage
    (triggers [(0, .batigestToBatisimply), (4000, .batigestToBatisimply)])

/-! ## Markup given by the caller

The two templates put the message between the tags as it is (lines 31 and
44), and the browser parses what is assigned to innerHTML. What the parsed
markup then does is the work of the browser and no code of this script; it
enters as a parameter: the calls of window functions that the inline
handlers of an assigned markup make. The fixed messages of the two triggers
are plain text and make none. -/

/-- The calls the inline handlers of an assigned markup make, in order; an
exception in one is reported and the next one runs. -/
def runHandlers (handlers : String → List Call) (html : String) (p : Page) : Page :=
  (handlers html).foldl (fun q c => settle q (c.run q)) p

/-- Lines 23-35 followed by what the browser makes of the assigned markup:
window.showSyncStatus for a message that may hold markup. -/
def showSyncStatusParsed (handlers : String → List Call) (message color : String)
    (p : Page) : Except JsError Page :=
  match showSyncStatus message color p with
  | .error e => .error e
  | .ok q => .ok (runHandlers handlers (statusHtml (colorClasses color) message) q)

/-- Lines 37-50 followed by what the browser makes of the assigned markup:
window.showSyncSuccess for a message that may hold markup. -/
def showSyncSuccessParsed (handlers : String → List Call) (message : String)
    (p : Page) : Except JsError Page :=
  match showSyncSuccess message p with
  | .error e => .error e
  | .ok q => .ok (runHandlers handlers (successHtml message) q)

/-- A message with markup: an image that cannot load, whose inline error
handler calls the first trigger. -/
def handlerMessage : String :=
  "<img src=x onerror=\"syncBatigestToBatisimply()\">"

/-- A browser as far as that image goes: markup that holds the image runs
its error handler, one call of syncBatigestToBatisimply; any other markup
runs nothing. -/
def imageHandlers (html : String) : List Call :=
  if handlerMessage.data <:+: html.data then [.syncBatigestToBatisimply] else []

/-- The loaded idle page after showSyncStatus was called with the image. -/
def statusWithImage : Page :=
  settle loadedPage (showSyncStatusParsed imageHandlers handlerMessage "blue" loadedPage)

/-- The loaded idle page after showSyncSuccess was called with the image. -/
def successWithImage : Page :=
  settle loadedPage (showSyncSuccessParsed imageHandlers handlerMessage loadedPage)

/-! ## Frame lemmas: what the operations leave alone -/

theorem showSyncStatus_some (message color : String) (p : Page) (e : Element)
    (h : p.statusMessage = some e) :
    showSyncStatus message color p = .ok { p with
      statusMessage := some
        { innerHTML := statusHtml (colorClasses color) message
          classList := classListRemove "hidden" e.classList }
      writes := p.writes ++ [{ time := p.now, html := statusHtml (colorClasses color) message }] } := by
  simp [showSyncStatus, h]

theorem showSyncSuccess_some (message : String) (p : Page) (e : Element)
    (h : p.statusMessage = some e) :
    showSyncSuccess message p = .ok { p with
      statusMessage := some { e with innerHTML := successHtml message }
      timers := p.timers ++ [{ due := p.now + 5000, callback := .hide }]
      writes := p.writes ++ [{ time := p.now, html := successHtml message }] } := by
  simp [showSyncSuccess, h, setTimeout]

theorem showSyncStatus_none (message color : String) (p : Page)
    (h : p.statusMessage = none) :
    showSyncStatus message color p = .error .typeError := by
  simp [showSyncStatus, h]

theorem showSyncSuccess_none (message : String) (p : Page)
    (h : p.statusMessage = none) :
    showSyncSuccess message p = .error .typeError := by
  simp [showSyncSuccess, h]

theorem sync_some (d : Direction) (p : Page) (e : Element)
    (h : p.statusMessage = some e) :
    sync d p = .ok { p with
      statusMessage := some
        { innerHTML := runningHtml d
          classList := classListRemove "hidden" e.classList }
      timers := p.timers ++ [{ due := p.now + 3000, callback := .syncDone d }]
      writes := p.writes ++ [{ time := p.now, html := runningHtml d }] } := by
  simp [sync, showSyncStatus_some _ _ p e h, setTimeout, runningHtml]

theorem sync_none (d : Direction) (p : Page) (h : p.statusMessage = none) :
    sync d p = .error .typeError := by
  simp [sync, showSyncStatus_none _ _ p h]

theorem callback_run_untouched (cb : Callback) (p : Page) :
    (settle p (cb.run p)).untouched = p.untouched := by
  cases cb with
  | syncDone d =>
    cases h : p.statusMessage with
    | none => simp [Callback.run, showSyncSuccess_none _ p h, settle]
    | some e => simp [Callback.run, showSyncSuccess_some _ p e h, settle, Page.untouched]
  | hide =>
    cases h : p.statusMessage with
    | none => simp [Callback.run, h, settle]
    | some e => simp [Callback.run, h, settle, Page.untouched]

theorem fire_untouched (tm : Timer) (p : Page) :
    (fire tm p).untouched = p.untouched := by
  simp only [fire]
  rw [callback_run_untouched]
  rfl

theorem advanceFuel_untouched (fuel t : Nat) (p : Page) :
    (advanceFuel fuel t p).untouched = p.untouched := by
  induction fuel generalizing p with
  | zero => rfl
  | succ n ih =>
    simp only [advanceFuel]
    split
    · rfl
    · split
      · rw [ih, fire_untouched]; rfl
      · rfl

theorem advanceTo_untouched (t : Nat) (p : Page) :
    (advanceTo t p).untouched = p.untouched :=
  advanceFuel_untouched _ t p

theorem call_run_untouched (c : Call) (p : Page) :
    (settle p (c.run p)).untouched = p.untouched := by
  cases h : p.statusMessage with
  | none =>
    cases c <;>
      simp [Call.run, syncBatigestToBatisimply, syncBatisimplyToBatigest, sync_none _ p h,
        showSyncStatus_none _ _ p h, showSyncSuccess_none _ p h, updateConnectionStatus, settle]
  | some e =>
    cases c <;>
      simp [Call.run, syncBatigestToBatisimply, syncBatisimplyToBatigest, sync_some _ p e h,
        showSyncStatus_some _ _ p e h, showSyncSuccess_some _ p e h, updateConnectionStatus,
        settle, Page.untouched]

theorem step_untouched (p : Page) (e : Event) : (step p e).untouched = p.untouched := by
  simp only [step]
  rw [call_run_untouched, advanceTo_untouched]

theorem runEvents_untouched (p : Page) (es : List Event) :
    (runEvents p es).untouched = p.untouched := by
  induction es generalizing p with
  | nil => rfl
  | cons e es ih =>
    simp only [runEvents, List.foldl_cons]
    have := ih (step p e)
    simp only [runEvents] at this
    rw [this, step_untouched]

theorem mem_classListAdd (token : String) (cl : List String) :
    token ∈ classListAdd token cl := by
  unfold classListAdd
  split <;> simp_all

theorem mem_windowSet_self (name : String) (w : List String) : name ∈ windowSet name w := by
  unfold windowSet
  split <;> simp_all

theorem mem_windowSet_of_mem {x : String} (name : String) {w : List String} (h : x ∈ w) :
    x ∈ windowSet name w := by
  unfold windowSet
  split <;> simp_all

/-! ## The two templates never produce the same content -/

set_option maxRecDepth 100000 in
theorem successHtml_take (m : String) :
    (successHtml m).data.take 30 = (successHtml "").data.take 30 := by
  unfold successHtml
  rw [String.data_append, String.data_append, String.data_append, String.data_append,
    List.append_assoc, List.append_assoc,
    List.take_append_of_le_length (by decide), List.take_append_of_le_length (by decide)]

theorem successHtml_ne_runningHtml (m : String) (d : Direction) :
    successHtml m ≠ runningHtml d := by
  intro h
  have h2 := congrArg (fun s => s.data.take 30) h
  simp only [successHtml_take m] at h2
  revert h2
  cases d <;> decide

theorem not_showsRunning_of_showsDone {p : Page} (h : showsDone p) : ¬ showsRunning p := by
  rintro ⟨d1, h1⟩
  obtain ⟨d, hd⟩ := h
  rw [hd] at h1
  exact successHtml_ne_runningHtml _ d1 (Option.some.inj h1)

theorem fire_showsDone (tm : Timer) {p : Page} (h : showsDone p) : showsDone (fire tm p) := by
  obtain ⟨d, hd⟩ := h
  cases hs : p.statusMessage with
  | none => simp [statusContent, hs] at hd
  | some e =>
    obtain ⟨due, cb⟩ := tm
    cases cb with
    | syncDone d1 =>
      refine ⟨d1, ?_⟩
      simp [fire, Callback.run, showSyncSuccess, hs, settle, setTimeout, statusContent, doneHtml]
    | hide =>
      refine ⟨d, ?_⟩
      simpa [fire, Callback.run, hs, settle, statusContent] using hd

theorem advanceFuel_showsDone (fuel t : Nat) {p : Page} (h : showsDone p) :
    showsDone (advanceFuel fuel t p) := by
  induction fuel generalizing p with
  | zero => exact h
  | succ n ih =>
    simp only [advanceFuel]
    split
    · exact h
    · split
      · exact ih (fire_showsDone _ h)
      · exact h

/-! ## The timer queue -/

theorem popNext_eq_none {l : List Timer} (h : popNext l = none) : l = [] := by
  cases l with
  | nil => rfl
  | cons tm rest =>
    simp only [popNext] at h
    split at h
    · simp at h
    · split at h <;> simp at h

theorem popNext_split {l : List Timer} {tm : Timer} {rest : List Timer}
    (h : popNext l = some (tm, rest)) :
    ∃ pre post, l = pre ++ tm :: post ∧ rest = pre ++ post
      ∧ (∀ x ∈ pre, tm.due < x.due) ∧ (∀ x ∈ post, tm.due ≤ x.due) := by
  induction l generalizing tm rest with
  | nil => simp [popNext] at h
  | cons tm0 rest0 ih =>
    simp only [popNext] at h
    split at h
    · rename_i hn
      have := popNext_eq_none hn
      subst this
      simp only [Option.some.injEq, Prod.mk.injEq] at h
      obtain ⟨rfl, rfl⟩ := h
      exact ⟨[], [], rfl, rfl, by simp, by simp⟩
    · rename_i r rest1 hr
      obtain ⟨pre, post, h1, h2, h3, h4⟩ := ih hr
      split at h
      · rename_i hlt
        simp only [Option.some.injEq, Prod.mk.injEq] at h
        obtain ⟨rfl, rfl⟩ := h
        refine ⟨tm0 :: pre, post, by simp [h1], by simp [h2], ?_, h4⟩
        intro x hx
        rcases List.mem_cons.1 hx with rfl | hx
        · exact hlt
        · exact h3 x hx
      · rename_i hge
        simp only [Option.some.injEq, Prod.mk.injEq] at h
        obtain ⟨rfl, rfl⟩ := h
        refine ⟨[], rest0, rfl, rfl, by simp, ?_⟩
        intro x hx
        rw [h1] at hx
        rcases List.mem_append.1 hx with hx | hx
        · have := h3 x hx; omega
        · rcases List.mem_cons.1 hx with rfl | hx
          · omega
          · have := h4 x hx; omega

theorem weight_pos (cb : Callback) : 0 < cb.weight := by
  cases cb <;> simp [Callback.weight]

theorem timersWeight_append (a b : List Timer) :
    timersWeight (a ++ b) = timersWeight a + timersWeight b := by
  simp [timersWeight]

theorem timersWeight_cons (tm : Timer) (b : List Timer) :
    timersWeight (tm :: b) = tm.callback.weight + timersWeight b := by
  simp [timersWeight]

theorem isDoneHtml_doneHtml (d : Direction) : isDoneHtml (doneHtml d) = true := by
  cases d <;> simp [isDoneHtml]

theorem isDoneHtml_runningHtml (d : Direction) : isDoneHtml (runningHtml d) = false := by
  have h1 := successHtml_ne_runningHtml (successMessage .batigestToBatisimply) d
  have h2 := successHtml_ne_runningHtml (successMessage .batisimplyToBatigest) d
  simp only [isDoneHtml, doneHtml, Bool.or_eq_false_iff, beq_eq_false_iff_ne, ne_eq]
  exact ⟨fun h => h1 h.symm, fun h => h2 h.symm⟩

theorem successWrites_append (a b : List Write) :
    successWrites (a ++ b) = successWrites a ++ successWrites b := by
  simp [successWrites]

theorem fire_next {q : Page} {tm : Timer} {rest : List Timer} (hq : Consistent q)
    (h : popNext q.timers = some (tm, rest)) :
    Consistent (fire tm { q with timers := rest })
      ∧ ledger (fire tm { q with timers := rest }) = ledger q
      ∧ timersWeight (fire tm { q with timers := rest }).timers < timersWeight q.timers
      ∧ (fire tm { q with timers := rest }).now = tm.due := by
  obtain ⟨pre, post, h1, h2, h3, h4⟩ := popNext_split h
  obtain ⟨e, he⟩ := Option.ne_none_iff_exists'.1 hq.status
  have hnow : q.now ≤ tm.due := hq.pending tm (by simp [h1])
  have hmax : max q.now tm.due = tm.due := max_eq_right hnow
  have hrest : ∀ x ∈ rest, tm.due ≤ x.due := by
    intro x hx
    rw [h2] at hx
    rcases List.mem_append.1 hx with hx | hx
    · exact le_of_lt (h3 x hx)
    · exact h4 x hx
  have hsub : rest.Sublist q.timers := by
    rw [h1, h2]
    exact List.Sublist.append_left (List.sublist_cons_self tm post) pre
  have hord : rest.Pairwise
      (fun x y => x.callback ≠ .hide → y.callback ≠ .hide → x.due ≤ y.due) :=
    hq.ordered.sublist hsub
  have hw : timersWeight q.timers = timersWeight rest + tm.callback.weight := by
    rw [h1, h2, timersWeight_append, timersWeight_append, timersWeight_cons]
    omega
  obtain ⟨due, cb⟩ := tm
  cases cb with
  | hide =>
    have hf : fire ⟨due, .hide⟩ { q with timers := rest } =
        { q with timers := rest, now := due,
                 statusMessage := some { e with classList := classListAdd "hidden" e.classList } } := by
      simp only [fire, Callback.run, he, settle]
      simp only [] at hmax
      rw [hmax]
    rw [hf]
    refine ⟨⟨by simp, hord, hrest, ?_, ?_⟩, ?_, ?_, rfl⟩
    · intro x hx hc
      have := hq.near x (hsub.subset hx) hc
      simp only [] at hnow ⊢
      omega
    · intro w hw
      have := hq.past w hw
      simp only [] at hnow ⊢
      omega
    · simp [ledger, h1, h2, List.filterMap_append, Timer.planned]
    · simp only [hw, Callback.weight]
      omega
  | syncDone d =>
    have hf : fire ⟨due, .syncDone d⟩ { q with timers := rest } =
        { q with timers := rest ++ [{ due := due + 5000, callback := .hide }], now := due,
                 statusMessage := some { e with innerHTML := doneHtml d },
                 writes := q.writes ++ [{ time := due, html := doneHtml d }] } := by
      simp only [fire, Callback.run, showSyncSuccess, he, settle, setTimeout, doneHtml]
      simp only [] at hmax
      rw [hmax]
    rw [hf]
    have hpre : ∀ x ∈ pre, x.callback = .hide := by
      intro x hx
      by_contra hc
      have hp := hq.ordered
      rw [h1, List.pairwise_append] at hp
      have := hp.2.2 x hx ⟨due, .syncDone d⟩ (by simp) hc (by simp)
      have := h3 x hx
      simp only [] at *
      omega
    have hpre2 : pre.filterMap Timer.planned = [] := by
      rw [List.filterMap_eq_nil_iff]
      intro x hx
      simp [Timer.planned, hpre x hx]
    refine ⟨⟨by simp, ?_, ?_, ?_, ?_⟩, ?_, ?_, rfl⟩
    · rw [List.pairwise_append]
      refine ⟨hord, by simp, ?_⟩
      intro x _ y hy _ hc
      simp only [List.mem_singleton] at hy
      subst hy
      simp at hc
    · intro x hx
      rcases List.mem_append.1 hx with hx | hx
      · exact hrest x hx
      · simp only [List.mem_singleton] at hx
        subst hx
        simp
    · intro x hx hc
      rcases List.mem_append.1 hx with hx | hx
      · have := hq.near x (hsub.subset hx) hc
        simp only [] at hnow ⊢
        omega
      · simp only [List.mem_singleton] at hx
        subst hx
        simp at hc
    · intro w hw
      rcases List.mem_append.1 hw with hw | hw
      · have := hq.past w hw
        simp only [] at hnow ⊢
        omega
      · simp only [List.mem_singleton] at hw
        subst hw
        simp
    · simp [ledger, h1, h2, List.filterMap_append, Timer.planned, successWrites_append, hpre2,
        successWrites, isDoneHtml_doneHtml]
    · simp only [hw, Callback.weight, timersWeight_append, timersWeight_cons]
      simp [timersWeight]

theorem timersWeight_eq_zero {l : List Timer} (h : timersWeight l = 0) : l = [] := by
  cases l with
  | nil => rfl
  | cons tm rest =>
    rw [timersWeight_cons] at h
    have := weight_pos tm.callback
    omega

theorem clock_consistent (t : Nat) {q : Page} (hq : Consistent q) (ht : q.now ≤ t)
    (hall : ∀ tm ∈ q.timers, t < tm.due) :
    Consistent { q with now := max q.now t }
      ∧ ledger { q with now := max q.now t } = ledger q
      ∧ ({ q with now := max q.now t } : Page).now = t
      ∧ ∀ tm ∈ ({ q with now := max q.now t } : Page).timers, t < tm.due := by
  have hmax : max q.now t = t := max_eq_right ht
  rw [hmax]
  refine ⟨⟨hq.status, hq.ordered, fun tm htm => le_of_lt (hall tm htm), ?_, ?_⟩, rfl, rfl, hall⟩
  · intro tm htm hc
    have := hq.near tm htm hc
    simp only []
    omega
  · intro w hw
    have := hq.past w hw
    simp only []
    omega

theorem advanceFuel_consistent (fuel t : Nat) {q : Page} (hq : Consistent q)
    (hfuel : timersWeight q.timers ≤ fuel) (ht : q.now ≤ t) :
    Consistent (advanceFuel fuel t q)
      ∧ ledger (advanceFuel fuel t q) = ledger q
      ∧ (advanceFuel fuel t q).now = t
      ∧ ∀ tm ∈ (advanceFuel fuel t q).timers, t < tm.due := by
  induction fuel generalizing q with
  | zero =>
    have hnil := timersWeight_eq_zero (Nat.le_zero.1 hfuel)
    simp only [advanceFuel]
    exact clock_consistent t hq ht (by simp [hnil])
  | succ n ih =>
    simp only [advanceFuel]
    split
    · rename_i hn
      exact clock_consistent t hq ht (by simp [popNext_eq_none hn])
    · rename_i tm rest hp
      split
      · rename_i hdue
        obtain ⟨c1, c2, c3, c4⟩ := fire_next hq hp
        obtain ⟨r1, r2, r3, r4⟩ := ih c1 (by omega) (by omega)
        exact ⟨r1, r2.trans c2, r3, r4⟩
      · rename_i hdue
        apply clock_consistent t hq ht
        obtain ⟨pre, post, h1, _, h3, h4⟩ := popNext_split hp
        intro x hx
        rw [h1] at hx
        rcases List.mem_append.1 hx with hx | hx
        · have := h3 x hx; omega
        · rcases List.mem_cons.1 hx with rfl | hx
          · omega
          · have := h4 x hx; omega

theorem sync_consistent (d : Direction) {q : Page} (hq : Consistent q) :
    Consistent (settle q (sync d q))
      ∧ ledger (settle q (sync d q))
          = ledger q ++ [{ time := q.now + 3000, html := doneHtml d }]
      ∧ (settle q (sync d q)).now = q.now := by
  obtain ⟨e, he⟩ := Option.ne_none_iff_exists'.1 hq.status
  rw [sync_some d q e he]
  simp only [settle]
  refine ⟨⟨by simp, ?_, ?_, ?_, ?_⟩, ?_, trivial⟩
  · rw [List.pairwise_append]
    refine ⟨hq.ordered, by simp, ?_⟩
    intro x hx y hy hc _
    simp only [List.mem_singleton] at hy
    subst hy
    exact hq.near x hx hc
  · intro x hx
    rcases List.mem_append.1 hx with hx | hx
    · exact hq.pending x hx
    · simp only [List.mem_singleton] at hx
      subst hx
      simp
  · intro x hx hc
    rcases List.mem_append.1 hx with hx | hx
    · exact hq.near x hx hc
    · simp only [List.mem_singleton] at hx
      subst hx
      simp
  · intro w hw
    rcases List.mem_append.1 hw with hw | hw
    · exact hq.past w hw
    · simp only [List.mem_singleton] at hw
      subst hw
      simp
  · simp [ledger, successWrites_append, List.filterMap_append, Timer.planned, successWrites,
      isDoneHtml_runningHtml]

theorem ofDirection_run (d : Direction) (p : Page) : (Call.ofDirection d).run p = sync d p := by
  cases d <;> rfl

theorem step_trigger (delay : Nat) (d : Direction) {p : Page} (hp : Consistent p) :
    Consistent (step p (trigger delay d))
      ∧ ledger (step p (trigger delay d))
          = ledger p ++ [{ time := p.now + delay + 3000, html := doneHtml d }]
      ∧ (step p (trigger delay d)).now = p.now + delay := by
  obtain ⟨a1, a2, a3, _⟩ :=
    advanceFuel_consistent (timersWeight p.timers) (p.now + delay) hp (le_refl _)
      (Nat.le_add_right _ _)
  obtain ⟨b1, b2, b3⟩ := sync_consistent d a1
  simp only [step, trigger, ofDirection_run, advanceTo]
  refine ⟨b1, ?_, ?_⟩
  · rw [b2, a2, a3]
  · rw [b3, a3]

theorem runEvents_triggers (calls : List (Nat × Direction)) {p : Page} (hp : Consistent p) :
    Consistent (runEvents p (triggers calls))
      ∧ ledger (runEvents p (triggers calls)) = ledger p ++ completions p.now calls
      ∧ (runEvents p (triggers calls)).now = lastCallTime p.now calls := by
  induction calls generalizing p with
  | nil => simp [runEvents, triggers, completions, lastCallTime, hp]
  | cons c rest ih =>
    obtain ⟨s1, s2, s3⟩ := step_trigger c.1 c.2 hp
    obtain ⟨r1, r2, r3⟩ := ih s1
    have hrun : runEvents p (triggers (c :: rest))
        = runEvents (step p (trigger c.1 c.2)) (triggers rest) := by
      simp [runEvents, triggers]
    rw [hrun]
    refine ⟨r1, ?_, ?_⟩
    · rw [r2, s2, s3]
      simp [completions]
    · rw [r3, s3]
      simp [lastCallTime, Nat.add_assoc]

theorem completions_time_le (t0 : Nat) (calls : List (Nat × Direction)) :
    ∀ w ∈ completions t0 calls, w.time ≤ lastCallTime t0 calls + 3000 := by
  induction calls generalizing t0 with
  | nil => simp [completions]
  | cons c rest ih =>
    intro w hw
    simp only [completions, List.mem_cons] at hw
    have hl : lastCallTime t0 (c :: rest) = lastCallTime (t0 + c.1) rest := by
      simp [lastCallTime, Nat.add_assoc]
    rcases hw with rfl | hw
    · simp only [lastCallTime, List.map_cons, List.sum_cons]
      omega
    · rw [hl]
      exact ih _ w hw

theorem completions_length (t0 : Nat) (calls : List (Nat × Direction)) :
    (completions t0 calls).length = calls.length := by
  induction calls generalizing t0 with
  | nil => rfl
  | cons c rest ih => simp [completions, ih]

theorem hidden_not_mem_classListRemove (cl : List String) :
    "hidden" ∉ classListRemove "hidden" cl := by
  simp [classListRemove, List.mem_filter]

/-! ## Where later writes come from -/

theorem fire_writes (tm : Timer) (q : Page) :
    (∀ w ∈ (fire tm q).writes,
        w ∈ q.writes ∨ ∃ d, tm.callback = .syncDone d ∧ w.html = doneHtml d)
    ∧ (∀ x ∈ (fire tm q).timers, x ∈ q.timers ∨ x.callback = .hide) := by
  obtain ⟨due, cb⟩ := tm
  cases hs : q.statusMessage with
  | none =>
    cases cb <;>
      simp only [fire, Callback.run, showSyncSuccess, hs, settle] <;>
      exact ⟨fun w hw => Or.inl hw, fun x hx => Or.inl hx⟩
  | some e =>
    cases cb with
    | hide =>
      simp only [fire, Callback.run, hs, settle]
      exact ⟨fun w hw => Or.inl hw, fun x hx => Or.inl hx⟩
    | syncDone d =>
      constructor
      · intro w hw
        simp only [fire, Callback.run, showSyncSuccess, hs, settle, setTimeout,
          List.mem_append, List.mem_singleton] at hw
        rcases hw with hw | hw
        · exact Or.inl hw
        · exact Or.inr ⟨d, rfl, by rw [hw]; rfl⟩
      · intro x hx
        simp only [fire, Callback.run, showSyncSuccess, hs, settle, setTimeout,
          List.mem_append, List.mem_singleton] at hx
        rcases hx with hx | hx
        · exact Or.inl hx
        · exact Or.inr (by rw [hx])

theorem advanceFuel_writes (fuel t : Nat) (q : Page) :
    ∀ w ∈ (advanceFuel fuel t q).writes,
      w ∈ q.writes ∨ ∃ tm ∈ q.timers, ∃ d, tm.callback = .syncDone d ∧ w.html = doneHtml d := by
  induction fuel generalizing q with
  | zero => intro w hw; exact Or.inl hw
  | succ n ih =>
    intro w hw
    simp only [advanceFuel] at hw
    split at hw
    · exact Or.inl hw
    · rename_i tm rest hp
      split at hw
      · obtain ⟨pre, post, h1, h2, _, _⟩ := popNext_split hp
        have hsub : ∀ x ∈ rest, x ∈ q.timers := by
          intro x hx
          rw [h2] at hx
          rw [h1]
          rcases List.mem_append.1 hx with hx | hx
          · exact List.mem_append_left _ hx
          · exact List.mem_append_right _ (List.mem_cons_of_mem _ hx)
        have htm : tm ∈ q.timers := by rw [h1]; simp
        obtain ⟨f1, f2⟩ := fire_writes tm { q with timers := rest }
        rcases ih _ w hw with hw1 | ⟨x, hx, d, hd, hh⟩
        · rcases f1 w hw1 with hw2 | ⟨d, hd, hh⟩
          · exact Or.inl hw2
          · exact Or.inr ⟨tm, htm, d, hd, hh⟩
        · rcases f2 x hx with hx2 | hx2
          · exact Or.inr ⟨x, hsub x hx2, d, hd, hh⟩
          · rw [hx2] at hd; cases hd
      · exact Or.inl hw

/-! ## The claims -/



set_option maxRecDepth 100000 in
/-- C5 as stated fails for a message that holds markup: showSyncStatus called
on the loaded idle page with an image whose error handler calls the first
trigger leaves a completion timer pending, the running content is written
right after the content of the call, and the success content is written
3000 ms later; showSyncSuccess called with the same message does the same
next to its hide timer. -/
theorem message_with_handler_starts_a_sync :
    imageHandlers (statusHtml (colorClasses "blue") handlerMessage)
        = [.syncBatigestToBatisimply]
    ∧ statusWithImage.timers
        = [{ due := 3000, callback := .syncDone .batigestToBatisimply }]
    ∧ statusWithImage.writes
        = [{ time := 0, html := statusHtml (colorClasses "blue") handlerMessage },
           { time := 0, html := runningHtml .batigestToBatisimply }]
    ∧ (advanceTo 3000 statusWithImage).writes.getLast?
        = some { time := 3000, html := doneHtml .batigestToBatisimply }
    ∧ successWithImage.timers
        = [{ due := 5000, callback := .hide },
           { due := 3000, callback := .syncDone .batigestToBatisimply }]
    ∧ successWithImage.writes
        = [{ time := 0, html := successHtml handlerMessage },
           { time := 0, html := runningHtml .batigestToBatisimply }]
    ∧ (advanceTo 3000 successWithImage).writes.getLast?
        = some { time := 3000, html := doneHtml .batigestToBatisimply } := by
  decide

/-- C5 amended: with the status element present, and for every message and
colour whose assigned markup runs no inline handler (every plain text
message), showSyncStatus sets no timer and only replaces the content of the
status element and removes its class hidden; showSyncSuccess replaces the
content and sets exactly one timer, the hide callback due 5000 ms later,
whose whole effect is to add hidden to the status element; and after either
call, however long the clock runs and whatever was pending, every write to
the status element is one recorded by the end of the call or the success
write of a completion timer that was pending before the call. -/
theorem status_functions_start_no_sync_without_handlers (handlers : String → List Call)
    (p : Page) (e : Element) (message color : String)
    (h : p.statusMessage = some e)
    (h1 : handlers (statusHtml (colorClasses color) message) = [])
    (h2 : handlers (successHtml message) = []) :
    showSyncStatusParsed handlers message color p = .ok { p with
        statusMessage := some
          { innerHTML := statusHtml (colorClasses color) message
            classList := classListRemove "hidden" e.classList }
        writes := p.writes ++ [{ time := p.now, html := statusHtml (colorClasses color) message }] }
    ∧ showSyncSuccessParsed handlers message p = .ok { p with
        statusMessage := some { e with innerHTML := successHtml message }
        timers := p.timers ++ [{ due := p.now + 5000, callback := .hide }]
        writes := p.writes ++ [{ time := p.now, html := successHtml message }] }
    ∧ (∀ q : Page, Callback.hide.run q = .ok { q with
        statusMessage := q.statusMessage.map
          (fun s => { s with classList := classListAdd "hidden" s.classList }) })
    ∧ (∀ (t : Nat) (w : Write),
        w ∈ (advanceTo t (settle p (showSyncStatusParsed handlers message color p))).writes →
          w ∈ p.writes ++ [{ time := p.now, html := statusHtml (colorClasses color) message }]
          ∨ ∃ tm ∈ p.timers, ∃ d, tm.callback = .syncDone d ∧ w.html = doneHtml d)
    ∧ (∀ (t : Nat) (w : Write),
        w ∈ (advanceTo t (settle p (showSyncSuccessParsed handlers message p))).writes →
          w ∈ p.writes ++ [{ time := p.now, html := successHtml message }]
          ∨ ∃ tm ∈ p.timers, ∃ d, tm.callback = .syncDone d ∧ w.html = doneHtml d) := by
  have e1 : showSyncStatusParsed handlers message color p = .ok { p with
        statusMessage := some
          { innerHTML := statusHtml (colorClasses color) message
            classList := classListRemove "hidden" e.classList }
        writes := p.writes ++ [{ time := p.now, html := statusHtml (colorClasses color) message }] } := by
    simp [showSyncStatusParsed, showSyncStatus_some _ _ p e h, runHandlers, h1]
  have e2 : showSyncSuccessParsed handlers message p = .ok { p with
        statusMessage := some { e with innerHTML := successHtml message }
        timers := p.timers ++ [{ due := p.now + 5000, callback := .hide }]
        writes := p.writes ++ [{ time := p.now, html := successHtml message }] } := by
    simp [showSyncSuccessParsed, showSyncSuccess_some _ p e h, runHandlers, h2]
  refine ⟨e1, e2, ?_, ?_, ?_⟩
  · intro q
    cases hq : q.statusMessage with
    | none => simp only [Callback.run, hq, Option.map_none']; rw [← hq]
    | some s => simp [Callback.run, hq]
  · intro t w hw
    rw [e1] at hw
    rcases advanceFuel_writes _ t _ w hw with hw1 | hw1
    · exact Or.inl hw1
    · exact Or.inr hw1
  · intro t w hw
    rw [e2] at hw
    rcases advanceFuel_writes _ t _ w hw with hw1 | ⟨tm, htm, d, hd, hh⟩
    · exact Or.inl hw1
    · simp only [settle, List.mem_append, List.mem_singleton] at htm
      rcases htm with htm | htm
      · exact Or.inr ⟨tm, htm, d, hd, hh⟩
      · rw [htm] at hd; cases hd

set_option maxRecDepth 100000 in
/-- Witness of the amended C5: a plain text message on the loaded idle page,
in the browser that runs the handler of the image. -/
theorem status_functions_start_no_sync_without_handlers_witness :
    imageHandlers (statusHtml (colorClasses "blue") "Bonjour") = []
    ∧ imageHandlers (successHtml "Bonjour") = []
    ∧ showSyncStatusParsed imageHandlers "Bonjour" "blue" loadedPage = .ok { loadedPage with
        statusMessage := some
          { innerHTML := statusHtml (colorClasses "blue") "Bonjour"
            classList := classListRemove "hidden" ["mt-6", "hidden"] }
        writes := loadedPage.writes
          ++ [{ time := loadedPage.now, html := statusHtml (colorClasses "blue") "Bonjour" }] } :=
  ⟨by decide, by decide,
    (status_functions_start_no_sync_without_handlers imageHandlers loadedPage
      { innerHTML := "", classList := ["mt-6", "hidden"] } "Bonjour" "blue" rfl
      (by decide) (by decide)).1⟩

/-- C6 as stated fails: on the loaded idle page a call of
updateConnectionStatus returns normally and the page, with its sqlStatus
and pgStatus elements, is exactly what it was. -/
theorem updateConnectionStatus_refreshes_nothing :
    updateConnectionStatus loadedPage = .ok loadedPage
    ∧ (settle loadedPage (updateConnectionStatus loadedPage)).sqlStatus = loadedPage.sqlStatus
    ∧ (settle loadedPage (updateConnectionStatus loadedPage)).pgStatus = loadedPage.pgStatus :=
  ⟨rfl, rfl, rfl⟩

/-- C6 amended: updateConnectionStatus never fails and has no effect at
all; it looks the two elements up and leaves every part of the page,
sqlStatus and pgStatus included, unchanged. -/
theorem updateConnectionStatus_is_a_no_op (p : Page) :
    updateConnectionStatus p = .ok p := rfl

/-- C7: after the DOMContentLoaded handler, whatever events follow and
however long the clock then runs, the sync icon exists exactly when it
existed before the handler and, when it exists, carries animate-spin; the
handler (a total function, so it cannot fail) stores the five functions on
window whether or not the icon exists, and they stay stored. -/
theorem syncIcon_animation_is_permanent (p : Page) (es : List Event) (t : Nat) :
    (advanceTo t (runEvents (domContentLoaded p) es)).syncIcon
        = p.syncIcon.map
            (fun icon => { icon with classList := classListAdd "animate-spin" icon.classList })
    ∧ (∀ cl : List String, "animate-spin" ∈ classListAdd "animate-spin" cl)
    ∧ (advanceTo t (runEvents (domContentLoaded p) es)).window = (domContentLoaded p).window
    ∧ "syncBatigestToBatisimply" ∈ (domContentLoaded p).window
    ∧ "syncBatisimplyToBatigest" ∈ (domContentLoaded p).window
    ∧ "showSyncStatus" ∈ (domContentLoaded p).window
    ∧ "showSyncSuccess" ∈ (domContentLoaded p).window
    ∧ "updateConnectionStatus" ∈ (domContentLoaded p).window := by
  have hu : (advanceTo t (runEvents (domContentLoaded p) es)).untouched
      = (domContentLoaded p).untouched := by
    rw [advanceTo_untouched, runEvents_untouched]
  simp only [Page.untouched, Prod.mk.injEq] at hu
  refine ⟨?_, fun cl => mem_classListAdd _ cl, hu.2.2.2, ?_, ?_, ?_, ?_, ?_⟩
  · rw [hu.1]
    cases h : p.syncIcon <;> simp [domContentLoaded, h]
  · exact mem_windowSet_of_mem _ (mem_windowSet_of_mem _ (mem_windowSet_of_mem _
      (mem_windowSet_of_mem _ (mem_windowSet_self _ _))))
  · exact mem_windowSet_of_mem _ (mem_windowSet_of_mem _ (mem_windowSet_of_mem _
      (mem_windowSet_self _ _)))
  · exact mem_windowSet_of_mem _ (mem_windowSet_of_mem _ (mem_windowSet_self _ _))
  · exact mem_windowSet_of_mem _ (mem_windowSet_self _ _)
  · exact mem_windowSet_self _ _

/-- C2 as stated fails: on the loaded idle page, a second call of the
trigger of a direction 1000 ms after the first, while the first completion
timer is still pending, leaves two completion timers of that direction
pending. -/
theorem second_trigger_starts_a_second_job :
    pendingJobs .batigestToBatisimply
        (runEvents loadedPage [trigger 0 .batigestToBatisimply]) = 1
    ∧ pendingJobs .batigestToBatisimply
        (runEvents loadedPage
          [trigger 0 .batigestToBatisimply, trigger 1000 .batigestToBatisimply]) = 2
    ∧ pendingJobs .batisimplyToBatigest
        (runEvents loadedPage
          [trigger 0 .batisimplyToBatigest, trigger 1000 .batisimplyToBatigest]) = 2 := by
  decide

/-- C2 amended: with the status element present, every call of the trigger
of a direction d returns normally and sets one more completion timer of d,
due 3000 ms later, whatever is already pending; the number of running jobs
of d grows by one with each call. -/
theorem every_trigger_starts_a_job (d : Direction) (p : Page) (e : Element)
    (h : p.statusMessage = some e) :
    ∃ q, sync d p = .ok q
      ∧ q.timers = p.timers ++ [{ due := p.now + 3000, callback := .syncDone d }]
      ∧ pendingJobs d q = pendingJobs d p + 1 := by
  refine ⟨_, sync_some d p e h, rfl, ?_⟩
  simp [pendingJobs, List.countP_append]

/-- Witness of the amended C2 on the loaded idle page. -/
theorem every_trigger_starts_a_job_witness :
    ∃ q, sync .batigestToBatisimply loadedPage = .ok q
      ∧ q.timers = loadedPage.timers
          ++ [{ due := loadedPage.now + 3000, callback := .syncDone .batigestToBatisimply }]
      ∧ pendingJobs .batigestToBatisimply q
          = pendingJobs .batigestToBatisimply loadedPage + 1 :=
  every_trigger_starts_a_job .batigestToBatisimply loadedPage
    { innerHTML := "", classList := ["mt-6", "hidden"] } rfl

/-- C3: once the status element holds a success message, the firing of any
timer, and any stretch of time with all the firings it brings, leaves a
success message there and never a running one; a call that puts a running
message in its place is a call of one of the two triggers or of
showSyncStatus. -/
theorem success_message_survives_every_timer (p : Page) (h : showsDone p) :
    (∀ tm : Timer, showsDone (fire tm p) ∧ ¬ showsRunning (fire tm p))
    ∧ (∀ t : Nat, showsDone (advanceTo t p) ∧ ¬ showsRunning (advanceTo t p))
    ∧ (∀ c : Call, showsRunning (settle p (c.run p)) →
        c = .syncBatigestToBatisimply ∨ c = .syncBatisimplyToBatigest
          ∨ ∃ message color, c = .showSyncStatus message color) := by
  refine ⟨fun tm => ⟨fire_showsDone tm h, not_showsRunning_of_showsDone (fire_showsDone tm h)⟩,
    fun t => ⟨advanceFuel_showsDone _ t h,
      not_showsRunning_of_showsDone (advanceFuel_showsDone _ t h)⟩, ?_⟩
  intro c hc
  cases c with
  | syncBatigestToBatisimply => exact Or.inl rfl
  | syncBatisimplyToBatigest => exact Or.inr (Or.inl rfl)
  | showSyncStatus message color => exact Or.inr (Or.inr ⟨message, color, rfl⟩)
  | updateConnectionStatus =>
    exact absurd hc (not_showsRunning_of_showsDone h)
  | showSyncSuccess message =>
    exfalso
    obtain ⟨d1, h1⟩ := hc
    cases hs : p.statusMessage with
    | none =>
      obtain ⟨d, hd⟩ := h
      simp [statusContent, hs] at hd
    | some e =>
      simp only [Call.run, showSyncSuccess_some _ p e hs, settle, statusContent,
        Option.map_some', Option.some.injEq] at h1
      exact successHtml_ne_runningHtml _ _ h1

set_option maxRecDepth 100000 in
/-- Witness of C3: the loaded idle page 3000 ms after one trigger call. -/
theorem success_message_survives_every_timer_witness :
    showsDone (advanceTo 3000 (runEvents loadedPage [trigger 0 .batigestToBatisimply]))
    ∧ showsDone (advanceTo 8000
        (advanceTo 3000 (runEvents loadedPage [trigger 0 .batigestToBatisimply]))) :=
  ⟨⟨.batigestToBatisimply, by decide⟩,
    ((success_message_survives_every_timer
      (advanceTo 3000 (runEvents loadedPage [trigger 0 .batigestToBatisimply]))
      ⟨.batigestToBatisimply, by decide⟩).2.1 8000).1⟩

set_option maxRecDepth 100000 in
/-- C1: on a page whose status element is present and that has no timer
pending, a call of the trigger of direction d at time t returns normally;
before t + 3000 the status element shows the running content of d and is
visible, from t + 3000 until before t + 8000 it shows the success content of
d and is visible, and from t + 8000 on it is hidden with no timer left. The
only contents ever written are the running and the success content of d,
and these four contents are the markup given here in full: the spinner box
with the message of the direction ending in en cours..., and the green box
with the message of the direction ending in terminée avec succès !. -/
theorem single_trigger_scenario (d : Direction) (p : Page) (e : Element)
    (hs : p.statusMessage = some e) (ht : p.timers = []) :
    (runningHtml .batigestToBatisimply
        = "\n            <div class=\"bg-blue-50 border-blue-200 text-blue-700 border rounded-2xl p-6 text-center\">\n                <div class=\"flex items-center justify-center mb-4\">\n                    <div class=\"animate-spin rounded-full h-8 w-8 border-b-2 border-current\"></div>\n                </div>\n                <p class=\"font-medium\">Synchronisation Batigest → Batisimply en cours...</p>\n            </div>\n        "
      ∧ runningHtml .batisimplyToBatigest
        = "\n            <div class=\"bg-purple-50 border-purple-200 text-purple-700 border rounded-2xl p-6 text-center\">\n                <div class=\"flex items-center justify-center mb-4\">\n                    <div class=\"animate-spin rounded-full h-8 w-8 border-b-2 border-current\"></div>\n                </div>\n                <p class=\"font-medium\">Synchronisation Batisimply → Batigest en cours...</p>\n            </div>\n        "
      ∧ doneHtml .batigestToBatisimply
        = "\n            <div class=\"bg-green-50 border border-green-200 text-green-700 rounded-2xl p-6 text-center\">\n                <div class=\"flex items-center justify-center mb-4\">\n                    <i class=\"fas fa-check-circle text-3xl text-green-500\"></i>\n                </div>\n                <p class=\"font-medium\">Synchronisation Batigest → Batisimply terminée avec succès !</p>\n            </div>\n        "
      ∧ doneHtml .batisimplyToBatigest
        = "\n            <div class=\"bg-green-50 border border-green-200 text-green-700 rounded-2xl p-6 text-center\">\n                <div class=\"flex items-center justify-center mb-4\">\n                    <i class=\"fas fa-check-circle text-3xl text-green-500\"></i>\n                </div>\n                <p class=\"font-medium\">Synchronisation Batisimply → Batigest terminée avec succès !</p>\n            </div>\n        ")
    ∧ ∃ q, sync d p = .ok q
      ∧ (∀ τ, τ < 3000 →
          statusContent (advanceTo (p.now + τ) q) = some (runningHtml d)
          ∧ statusVisible (advanceTo (p.now + τ) q) = true
          ∧ (advanceTo (p.now + τ) q).writes
              = p.writes ++ [{ time := p.now, html := runningHtml d }])
      ∧ (∀ τ, 3000 ≤ τ → τ < 8000 →
          statusContent (advanceTo (p.now + τ) q) = some (doneHtml d)
          ∧ statusVisible (advanceTo (p.now + τ) q) = true
          ∧ (advanceTo (p.now + τ) q).writes
              = p.writes ++ [{ time := p.now, html := runningHtml d },
                  { time := p.now + 3000, html := doneHtml d }])
      ∧ (∀ τ, 8000 ≤ τ →
          statusContent (advanceTo (p.now + τ) q) = some (doneHtml d)
          ∧ statusVisible (advanceTo (p.now + τ) q) = false
          ∧ (advanceTo (p.now + τ) q).timers = []
          ∧ (advanceTo (p.now + τ) q).writes
              = p.writes ++ [{ time := p.now, html := runningHtml d },
                  { time := p.now + 3000, html := doneHtml d }]) := by
  have hv := hidden_not_mem_classListRemove e.classList
  refine ⟨⟨rfl, rfl, rfl, rfl⟩, _, sync_some d p e hs, ?_, ?_, ?_⟩
  · intro τ h1
    have : ¬ (p.now + 3000 ≤ p.now + τ) := by omega
    simp [advanceTo, ht, timersWeight, Callback.weight, advanceFuel, popNext, this,
      statusContent, statusVisible, hv]
  · intro τ h1 h2
    have a1 : p.now + 3000 ≤ p.now + τ := by omega
    have a2 : ¬ (p.now + 3000 + 5000 ≤ p.now + τ) := by omega
    simp [advanceTo, ht, timersWeight, Callback.weight, advanceFuel, popNext, a1, a2,
      fire, Callback.run, showSyncSuccess, setTimeout, settle,
      statusContent, statusVisible, hv, doneHtml]
  · intro τ h1
    have a1 : p.now + 3000 ≤ p.now + τ := by omega
    have a2 : p.now + 3000 + 5000 ≤ p.now + τ := by omega
    simp [advanceTo, ht, timersWeight, Callback.weight, advanceFuel, popNext, a1, a2,
      fire, Callback.run, showSyncSuccess, setTimeout, settle,
      statusContent, statusVisible, hv, doneHtml, mem_classListAdd]

/-- Witness of C1: the trigger of the second direction on the loaded idle
page, observed at 0, 3000 and 8000 ms, with the two contents in full. -/
theorem single_trigger_scenario_witness :
    ∃ q, sync .batisimplyToBatigest loadedPage = .ok q
      ∧ statusContent (advanceTo (loadedPage.now + 0) q)
          = some "\n            <div class=\"bg-purple-50 border-purple-200 text-purple-700 border rounded-2xl p-6 text-center\">\n                <div class=\"flex items-center justify-center mb-4\">\n                    <div class=\"animate-spin rounded-full h-8 w-8 border-b-2 border-current\"></div>\n                </div>\n                <p class=\"font-medium\">Synchronisation Batisimply → Batigest en cours...</p>\n            </div>\n        "
      ∧ statusVisible (advanceTo (loadedPage.now + 0) q) = true
      ∧ statusContent (advanceTo (loadedPage.now + 3000) q)
          = some "\n            <div class=\"bg-green-50 border border-green-200 text-green-700 rounded-2xl p-6 text-center\">\n                <div class=\"flex items-center justify-center mb-4\">\n                    <i class=\"fas fa-check-circle text-3xl text-green-500\"></i>\n                </div>\n                <p class=\"font-medium\">Synchronisation Batisimply → Batigest terminée avec succès !</p>\n            </div>\n        "
      ∧ statusVisible (advanceTo (loadedPage.now + 3000) q) = true
      ∧ statusVisible (advanceTo (loadedPage.now + 8000) q) = false := by
  obtain ⟨⟨_, hr, _, hd⟩, q, h0, h1, h2, h3⟩ :=
    single_trigger_scenario .batisimplyToBatigest loadedPage
      { innerHTML := "", classList := ["mt-6", "hidden"] } rfl rfl
  refine ⟨q, h0, ?_, (h1 0 (by decide)).2.1, ?_,
    (h2 3000 (by decide) (by decide)).2.1, (h3 8000 (by decide)).2.1⟩
  · rw [← hr]; exact (h1 0 (by decide)).1
  · rw [← hd]; exact (h2 3000 (by decide) (by decide)).1

set_option maxRecDepth 100000 in
/-- C4: on a page with the status element present, no timer pending and no
write recorded, after any finite sequence of trigger calls (each with its
delay after the previous one) the success writes recorded up to any time T
not before the last call are exactly the completions due by T: one per call,
the success content of the direction of that call, 3000 ms after the call,
in the order of the calls; from 3000 ms after the last call on they are all
there, as many as there were calls. The success content of each direction
is the green box given here in full, with the message of that direction,
and the two differ. -/
theorem each_trigger_writes_success_once (p : Page) (e : Element)
    (calls : List (Nat × Direction)) (T : Nat)
    (hs : p.statusMessage = some e) (ht : p.timers = []) (hw : p.writes = [])
    (hT : lastCallTime p.now calls ≤ T) :
    (doneHtml .batigestToBatisimply
        = "\n            <div class=\"bg-green-50 border border-green-200 text-green-700 rounded-2xl p-6 text-center\">\n                <div class=\"flex items-center justify-center mb-4\">\n                    <i class=\"fas fa-check-circle text-3xl text-green-500\"></i>\n                </div>\n                <p class=\"font-medium\">Synchronisation Batigest → Batisimply terminée avec succès !</p>\n            </div>\n        "
      ∧ doneHtml .batisimplyToBatigest
        = "\n            <div class=\"bg-green-50 border border-green-200 text-green-700 rounded-2xl p-6 text-center\">\n                <div class=\"flex items-center justify-center mb-4\">\n                    <i class=\"fas fa-check-circle text-3xl text-green-500\"></i>\n                </div>\n                <p class=\"font-medium\">Synchronisation Batisimply → Batigest terminée avec succès !</p>\n            </div>\n        "
      ∧ doneHtml .batigestToBatisimply ≠ doneHtml .batisimplyToBatigest)
    ∧ (∀ (t0 delay : Nat) (d : Direction) (rest : List (Nat × Direction)),
        completions t0 ((delay, d) :: rest)
          = { time := t0 + delay + 3000, html := doneHtml d } :: completions (t0 + delay) rest)
    ∧ successWrites (advanceTo T (runEvents p (triggers calls))).writes
        = (completions p.now calls).filter (fun w => decide (w.time ≤ T))
    ∧ (completions p.now calls).length = calls.length
    ∧ (lastCallTime p.now calls + 3000 ≤ T →
        successWrites (advanceTo T (runEvents p (triggers calls))).writes
          = completions p.now calls) := by
  have hp : Consistent p :=
    ⟨by simp [hs], by simp [ht], by simp [ht], by simp [ht], by simp [hw]⟩
  have hl : ledger p = [] := by simp [ledger, ht, hw, successWrites]
  obtain ⟨r1, r2, r3⟩ := runEvents_triggers calls hp
  obtain ⟨a1, a2, a3, a4⟩ :=
    advanceFuel_consistent (timersWeight (runEvents p (triggers calls)).timers) T r1 (le_refl _)
      (by omega)
  have hled : ledger (advanceTo T (runEvents p (triggers calls))) = completions p.now calls := by
    simp only [advanceTo]
    rw [a2, r2, hl, List.nil_append]
  have hmain : successWrites (advanceTo T (runEvents p (triggers calls))).writes
      = (completions p.now calls).filter (fun w => decide (w.time ≤ T)) := by
    rw [← hled]
    simp only [ledger, List.filter_append]
    have h1 : (successWrites (advanceTo T (runEvents p (triggers calls))).writes).filter
        (fun w => decide (w.time ≤ T))
        = successWrites (advanceTo T (runEvents p (triggers calls))).writes := by
      rw [List.filter_eq_self]
      intro w hw
      have hm : w ∈ (advanceTo T (runEvents p (triggers calls))).writes :=
        (List.mem_filter.1 hw).1
      have := a1.past w hm
      simp only [advanceTo] at hm ⊢
      rw [a3] at this
      simpa using this
    have h2 : ((advanceTo T (runEvents p (triggers calls))).timers.filterMap Timer.planned).filter
        (fun w => decide (w.time ≤ T)) = [] := by
      rw [List.filter_eq_nil_iff]
      intro w hw
      obtain ⟨tm, htm, hpl⟩ := List.mem_filterMap.1 hw
      have := a4 tm htm
      cases hc : tm.callback with
      | hide => simp [Timer.planned, hc] at hpl
      | syncDone d =>
        simp only [Timer.planned, hc, Option.some.injEq] at hpl
        subst hpl
        simp only [decide_eq_true_eq]
        omega
    rw [h1, h2, List.append_nil]
  refine ⟨⟨rfl, rfl, by decide⟩, fun _ _ _ _ => rfl, hmain, completions_length _ _, ?_⟩
  intro hfar
  rw [hmain, List.filter_eq_self]
  intro w hw
  have := completions_time_le _ _ w hw
  simp only [decide_eq_true_eq]
  omega

/-- Witness of C4: two calls on the loaded idle page, one per direction,
1000 ms apart, observed at 10000 ms. -/
theorem each_trigger_writes_success_once_witness :
    successWrites (advanceTo 10000 (runEvents loadedPage
        (triggers [(0, .batigestToBatisimply), (1000, .batisimplyToBatigest)]))).writes
      = [{ time := 3000, html := doneHtml .batigestToBatisimply },
         { time := 4000, html := doneHtml .batisimplyToBatigest }] :=
  (each_trigger_writes_success_once loadedPage
    { innerHTML := "", classList := ["mt-6", "hidden"] }
    [(0, .batigestToBatisimply), (1000, .batisimplyToBatigest)] 10000 rfl rfl rfl
    (by decide)).2.2.2.2 (by decide)

set_option maxRecDepth 100000 in
/-- C8 fails on the code: with a second trigger call 6000 ms after the
first, the hide timer of the first success fires at 8000 and hides the
status element; the completion timer of the second call is then the next
timer, due at 9000, and when it has fired the success content has been
written at 9000 into an element that carries hidden before and after. -/
theorem success_written_while_hidden :
    statusVisible (advanceTo 7999 secondCallAt6000) = true
    ∧ statusVisible (advanceTo 8999 secondCallAt6000) = false
    ∧ popNext (advanceTo 8999 secondCallAt6000).timers
        = some ({ due := 9000, callback := .syncDone .batigestToBatisimply }, [])
    ∧ (advanceTo 9000 secondCallAt6000).writes.getLast?
        = some { time := 9000, html := doneHtml .batigestToBatisimply }
    ∧ statusContent (advanceTo 9000 secondCallAt6000) = some (doneHtml .batigestToBatisimply)
    ∧ statusVisible (advanceTo 9000 secondCallAt6000) = false := by
  decide

set_option maxRecDepth 100000 in
/-- C9 fails on the code: with a second trigger call 4000 ms after the
first, the second success content is written at 7000 into a visible
element and no call follows, yet the hide timer of the first success, due
at 8000, hides the element 1000 ms later instead of 5000 ms later. -/
theorem success_hidden_before_5000 :
    (advanceTo 7000 secondCallAt4000).writes.getLast?
        = some { time := 7000, html := doneHtml .batigestToBatisimply }
    ∧ statusVisible (advanceTo 7000 secondCallAt4000) = true
    ∧ statusVisible (advanceTo 7999 secondCallAt4000) = true
    ∧ statusContent (advanceTo 8000 secondCallAt4000) = some (doneHtml .batigestToBatisimply)
    ∧ statusVisible (advanceTo 8000 secondCallAt4000) = false
    ∧ statusVisible (advanceTo 11999 secondCallAt4000) = false := by
  decide

end ConnecteurSages
